import Mathlib

/-!
Verification of the loop-lesson core of `src/main.js` (the TypeScript variant,
lines 795-1718): the counter-loop parser, the forEach parser, the bounded
sequence derivation, the lesson-data executors and the statement templater.

The JavaScript code is shallowly embedded: strings are Lean `String`s
(processed as `List Char`), JS numbers arising from the decimal literals the
grammar accepts are modeled as `Int` (counter pipeline) and `ℚ` (forEach
pipeline and the micro-evaluator); IEEE-754 rounding is not modeled, which is
exact for every value the modeled grammar can produce except non-terminating
binary expansions that no claim touches.  The handful of regular expressions
in the source are fixed patterns; each is embedded as a deterministic matcher
that mirrors the JS engine's backtracking behavior on that pattern, as argued
in the individual doc comments.
-/

set_option maxRecDepth 4000
set_option autoImplicit false

namespace LoopsDemo

/-- Character constants, named to keep the file free of escape-heavy literals. -/
def tabChar : Char := Char.ofNat 9

/-- Line feed. -/
def lfChar : Char := Char.ofNat 10

/-- Vertical tab. -/
def vtChar : Char := Char.ofNat 11

/-- Form feed. -/
def ffChar : Char := Char.ofNat 12

/-- Carriage return. -/
def crChar : Char := Char.ofNat 13

/-- Single quote. -/
def singleQuote : Char := Char.ofNat 39

/-- Backslash. -/
def backslashChar : Char := Char.ofNat 92

/-- Backtick. -/
def backtickChar : Char := Char.ofNat 96

/-- Whitespace as matched by the JS `\s` class and trimmed by `trim()`,
modeled over the ASCII whitespace characters (exotic Unicode whitespace is
not produced by any fragment the claims mention). -/
def isJsSpace (c : Char) : Bool :=
  c = ' ' || c = tabChar || c = lfChar || c = crChar || c = vtChar || c = ffChar

/-- Trim on character lists: JS `String.prototype.trim`. -/
def jsTrimList (cs : List Char) : List Char :=
  ((cs.dropWhile isJsSpace).reverse.dropWhile isJsSpace).reverse

/-- JS `s.trim()`. -/
def jsTrim (s : String) : String := ⟨jsTrimList s.data⟩

/-- First character of the identifier class `[a-zA-Z_$]` (start pattern, line 1316). -/
def isIdentStart (c : Char) : Bool := c.isAlpha || c = '_' || c = '$'

/-- Continuation class `[\w$]` = `[a-zA-Z0-9_$]`. -/
def isIdentChar (c : Char) : Bool := c.isAlphanum || c = '_' || c = '$'

/-- Identifier shape `[a-zA-Z_$][\w$]*`, anchored on the whole string. -/
def isJsIdent (s : String) : Bool :=
  match s.data with
  | [] => false
  | c :: rest => isIdentStart c && rest.all isIdentChar

/-- Literal-prefix matcher: `matchLiteral pat cs` returns the remainder of
`cs` after the literal characters `pat`, or `none` when `cs` does not start
with `pat`.  This is how a regex matches a run of literal (escaped) characters. -/
def matchLiteral : List Char → List Char → Option (List Char)
  | [], cs => some cs
  | _ :: _, [] => none
  | p :: ps, c :: cs => if p = c then matchLiteral ps cs else none

/-- Digit run to a number: what JS `Number` does on a plain digit string
(also the semantics of a `(\d+)` capture fed to `Number`). -/
def digitsToNat (cs : List Char) : Nat :=
  cs.foldl (fun acc c => acc * 10 + (c.toNat - 48)) 0

/-- Anchored `(\d+)$`: the whole remainder must be a nonempty digit run. -/
def matchDigitsEnd (cs : List Char) : Option Nat :=
  if !cs.isEmpty && cs.all Char.isDigit then some (digitsToNat cs) else none

/-- Anchored `(-?\d+)$`: optional minus sign, then digits to the end. -/
def matchSignedIntEnd : List Char → Option Int
  | [] => none
  | c :: rest =>
    if c = '-' then (matchDigitsEnd rest).map (fun n => -(n : Int))
    else (matchDigitsEnd (c :: rest)).map (fun n => (n : Int))

/-- The `;`-stripping `text.replace(/;$/, "")` applied before each counter
pattern match (lines 1315, 1326, 1339): removes one trailing semicolon. -/
def stripSemi (cs : List Char) : List Char :=
  if cs.getLast? = some ';' then cs.dropLast else cs

/-- Comparator: the TS union type `"<=" | ">="` (line 797). -/
inductive Comparator
  | le
  | ge
deriving DecidableEq

/-- Rendering of a comparator back into source text (string concatenation in
the trace lines uses the comparator value itself). -/
def comparatorText : Comparator → String
  | Comparator.le => "<="
  | Comparator.ge => ">="

/-- ParseResult<T> (line 799): `{ok: true; value}` or `{ok: false; error}`. -/
inductive ParseResult (α : Type)
  | ok (value : α)
  | error (error : String)
deriving DecidableEq

/-- The comparator-defined predicate used by `deriveCounterValues`
(line 1440): `value <= end` for `<=`, `value >= end` for `>=`. -/
def Comparator.check (cmp : Comparator) (endv value : Int) : Bool :=
  match cmp with
  | Comparator.le => decide (value ≤ endv)
  | Comparator.ge => decide (endv ≤ value)

/-- Loop body of `deriveCounterValues` (lines 1442-1449).  The JS guard
counts performed pushes and fails strictly after the 201st push; here `fuel`
is the number of pushes still allowed (`fuel = 200 - guard`), so the call
with `fuel = 200` fails exactly when the check still holds after 200 pushes. -/
def deriveAux (check : Int → Bool) (step : Int) : Nat → Int → Option (List Int × Int)
  | 0, current => if check current then none else some ([], current)
  | fuel + 1, current =>
    if check current then
      match deriveAux check step fuel (current + step) with
      | none => none
      | some (vs, next) => some (current :: vs, next)
    else some ([], current)

/-- deriveCounterValues (lines 1431-1452): collect the arithmetic sequence
while the comparator predicate holds against `endv`, guarded at 200
iterations; on success also return the first value failing the predicate. -/
def deriveCounterValues (start endv : Int) (comparator : Comparator) (step : Int) :
    ParseResult (List Int × Int) :=
  match deriveAux (comparator.check endv) step 200 start with
  | some (vs, next) => ParseResult.ok (vs, next)
  | none => ParseResult.error "This loop would run too many times. Adjust the numbers."

lemma deriveAux_ok (check : Int → Bool) (step : Int) :
    ∀ (k : Nat), ∀ (fuel : Nat) (current : Int), k ≤ fuel →
      (∀ j : Nat, j < k → check (current + (j : Int) * step) = true) →
      check (current + (k : Int) * step) = false →
      deriveAux check step fuel current =
        some ((List.range k).map (fun j : Nat => current + (j : Int) * step),
          current + (k : Int) * step) := by
  intro k
  induction k with
  | zero =>
    intro fuel current _ _ hk
    have hc : check current = false := by simpa using hk
    cases fuel with
    | zero => simp [deriveAux, hc]
    | succ f => simp [deriveAux, hc]
  | succ n ih =>
    intro fuel current hle hj hk
    have hc : check current = true := by
      have h0 := hj 0 (Nat.succ_pos n)
      simpa using h0
    obtain ⟨f, rfl⟩ : ∃ f, fuel = f + 1 := ⟨fuel - 1, by omega⟩
    have hj' : ∀ j : Nat, j < n → check (current + step + (j : Int) * step) = true := by
      intro j hjn
      have := hj (j + 1) (by omega)
      have harith : current + ((j : Int) + 1) * step = current + step + (j : Int) * step := by ring
      rw [show ((j + 1 : Nat) : Int) = (j : Int) + 1 by push_cast; ring, harith] at this
      exact this
    have hk' : check (current + step + (n : Int) * step) = false := by
      have harith : current + ((n : Int) + 1) * step = current + step + (n : Int) * step := by ring
      rw [show ((n + 1 : Nat) : Int) = (n : Int) + 1 by push_cast; ring, harith] at hk
      exact hk
    have hrec := ih f (current + step) (by omega) hj' hk'
    have hlist : (List.range (n + 1)).map (fun j : Nat => current + (j : Int) * step) =
        current :: (List.range n).map (fun j : Nat => current + step + (j : Int) * step) := by
      rw [List.range_succ_eq_map, List.map_cons, List.map_map]
      refine congrArg₂ List.cons (by norm_num) ?_
      refine List.map_congr_left ?_
      intro j _
      show current + ((j + 1 : Nat) : Int) * step = current + step + (j : Int) * step
      push_cast
      ring
    have hnext : current + ((n + 1 : Nat) : Int) * step = current + step + (n : Int) * step := by
      push_cast
      ring
    simp only [deriveAux, hc, if_true, hrec, hlist, hnext]

lemma deriveAux_none (check : Int → Bool) (step : Int) :
    ∀ (fuel : Nat) (current : Int),
      (∀ j : Nat, j ≤ fuel → check (current + (j : Int) * step) = true) →
      deriveAux check step fuel current = none := by
  intro fuel
  induction fuel with
  | zero =>
    intro current h
    have hc : check current = true := by simpa using h 0 (Nat.le_refl 0)
    simp [deriveAux, hc]
  | succ f ih =>
    intro current h
    have hc : check current = true := by simpa using h 0 (by omega)
    have h' : ∀ j : Nat, j ≤ f → check (current + step + (j : Int) * step) = true := by
      intro j hj
      have := h (j + 1) (by omega)
      have harith : current + ((j : Int) + 1) * step = current + step + (j : Int) * step := by ring
      rw [show ((j + 1 : Nat) : Int) = (j : Int) + 1 by push_cast; ring, harith] at this
      exact this
    simp [deriveAux, hc, ih (current + step) h']

/-- C1: for every integer start, end, step and comparator, when the
arithmetic sequence taken while the comparator predicate holds has some
length k ≤ 200 (the predicate first fails at index k), `deriveCounterValues`
succeeds with exactly that sequence as `values` and with `next` equal to the
first failing value `start + k * step`; and when the predicate holds at every
index up to 200 (so the sequence would exceed 200 entries, including the
non-terminating case), it fails with the exact runaway message. -/
theorem c1_deriveCounterValues (start endv step : Int) (cmp : Comparator) :
    (∀ k : Nat, k ≤ 200 →
      (∀ j : Nat, j < k → cmp.check endv (start + (j : Int) * step) = true) →
      cmp.check endv (start + (k : Int) * step) = false →
      deriveCounterValues start endv cmp step =
        ParseResult.ok ((List.range k).map (fun j : Nat => start + (j : Int) * step),
          start + (k : Int) * step))
    ∧ ((∀ k : Nat, k ≤ 200 → cmp.check endv (start + (k : Int) * step) = true) →
      deriveCounterValues start endv cmp step =
        ParseResult.error "This loop would run too many times. Adjust the numbers.") := by
  constructor
  · intro k hk hj hfail
    have h := deriveAux_ok (cmp.check endv) step k 200 start hk hj hfail
    simp [deriveCounterValues, h]
  · intro hall
    have h := deriveAux_none (cmp.check endv) step 200 start (fun j hj => hall j hj)
    simp [deriveCounterValues, h]

/-- Witness for C1: the default loop 1..5 with step 1 stops after five
values with next value 6, and counting down from 1 to -400 by -2 overruns
the 200-iteration guard. -/
theorem c1_deriveCounterValues_witness :
    deriveCounterValues 1 5 Comparator.le 1 = ParseResult.ok ([1, 2, 3, 4, 5], 6) ∧
    deriveCounterValues 1 (-400) Comparator.ge (-2) =
      ParseResult.error "This loop would run too many times. Adjust the numbers." := by
  constructor
  · have h := (c1_deriveCounterValues 1 5 1 Comparator.le).1 5 (by decide)
      (by decide) (by decide)
    rw [h]
    decide
  · exact (c1_deriveCounterValues 1 (-400) (-2) Comparator.ge).2 (by decide)

/-- Tail of the start pattern `^(?:let|const|var)?\\s*([a-zA-Z_$][\\w$]*)\\s*=\\s*(-?\\d+)$`
(line 1316) after the optional declarator alternative has been consumed:
whitespace, a captured identifier, whitespace, `=`, whitespace, a signed
integer reaching the end.  Each `\\s*` and the identifier star can take their
maximal run without loss: the character that must follow each of them can
never belong to the class just repeated, so the regex never backtracks here. -/
def startAfterDecl (cs : List Char) : Option (String × Int) :=
  let cs1 := cs.dropWhile isJsSpace
  match cs1 with
  | [] => none
  | c :: _ =>
    if isIdentStart c then
      let ident := cs1.takeWhile isIdentChar
      match (cs1.dropWhile isIdentChar).dropWhile isJsSpace with
      | [] => none
      | e :: r2 =>
        if e = '=' then
          (matchSignedIntEnd (r2.dropWhile isJsSpace)).map (fun n => (⟨ident⟩, n))
        else none
    else none

/-- One alternative of the greedy optional group `(?:let|const|var)?`: if the
keyword is a literal prefix, try the rest of the start pattern after it. -/
def tryDecl (kw : String) (cs : List Char) : Option (String × Int) :=
  match matchLiteral kw.data cs with
  | some rest => startAfterDecl rest
  | none => none

/-- Start-fragment matcher (lines 1314-1316): one trailing semicolon is
stripped, then the anchored pattern
`^(?:let|const|var)?\\s*([a-zA-Z_$][\\w$]*)\\s*=\\s*(-?\\d+)$` is matched with
the engine's backtracking order: the greedy optional group tries `let`,
`const`, `var` and finally the empty alternative, committing to the first
alternative that lets the rest of the pattern succeed. -/
def matchStart (s : String) : Option (String × Int) :=
  let cs := stripSemi s.data
  match tryDecl "let" cs with
  | some r => some r
  | none =>
    match tryDecl "const" cs with
    | some r => some r
    | none =>
      match tryDecl "var" cs with
      | some r => some r
      | none => startAfterDecl cs

/-- Tail of the condition pattern after the interpolated variable:
`\\s*(<=|>=)\\s*(-?\\d+)$` (line 1324). -/
def condAfterVar (cs : List Char) : Option (Comparator × Int) :=
  match cs.dropWhile isJsSpace with
  | c1 :: c2 :: rest =>
    if c1 = '<' ∧ c2 = '=' then
      (matchSignedIntEnd (rest.dropWhile isJsSpace)).map (fun n => (Comparator.le, n))
    else if c1 = '>' ∧ c2 = '=' then
      (matchSignedIntEnd (rest.dropWhile isJsSpace)).map (fun n => (Comparator.ge, n))
    else none
  | _ => none

/-- Condition-fragment matcher (lines 1323-1326): the pattern is built by raw
string interpolation, `new RegExp("^" + variable + "\\\\s*(<=|>=)\\\\s*(-?\\\\d+)$")`.
The interpolated variable was captured by the start stage, so its characters
are letters, digits, `_` or `$`; all are regex literals except `$`, which JS
parses as an end-of-input assertion.  A `$` anywhere in the variable makes
the whole pattern unsatisfiable, because the mandatory two-character
comparator alternation still has to match after the assertion; otherwise the
variable is matched literally. -/
def matchCondition (varName : String) (s : String) : Option (Comparator × Int) :=
  if varName.data.contains '$' then none
  else
    match matchLiteral varName.data (stripSemi s.data) with
    | some rest => condAfterVar rest
    | none => none

/-- Tail of the step pattern after the first interpolated variable:
`\\s*=\\s*<variable>\\s*([+-])\\s*(\\d+)$` (line 1337).  Returns the direction
(`1` for `+`, `-1` for `-`) and the magnitude. -/
def stepAfterVar (varName : String) (cs : List Char) : Option (Int × Nat) :=
  match cs.dropWhile isJsSpace with
  | [] => none
  | e :: r1 =>
    if e = '=' then
      match matchLiteral varName.data (r1.dropWhile isJsSpace) with
      | none => none
      | some r2 =>
        match r2.dropWhile isJsSpace with
        | [] => none
        | d :: r3 =>
          if d = '+' then (matchDigitsEnd (r3.dropWhile isJsSpace)).map (fun m => (1, m))
          else if d = '-' then (matchDigitsEnd (r3.dropWhile isJsSpace)).map (fun m => (-1, m))
          else none
    else none

/-- Step-fragment matcher (lines 1336-1339):
`new RegExp("^" + variable + "\\\\s*=\\\\s*" + variable + "\\\\s*([+-])\\\\s*(\\\\d+)$")`,
with the same raw interpolation as the condition pattern, hence the same
unsatisfiability when the captured variable contains `$`. -/
def matchStep (varName : String) (s : String) : Option (Int × Nat) :=
  if varName.data.contains '$' then none
  else
    match matchLiteral varName.data (stripSemi s.data) with
    | some rest => stepAfterVar varName rest
    | none => none

/-- Lazy quoted-span scan for `extractMessage`: the shortest run of
characters (none of them a line terminator, since `.` cannot cross one) up
to the next occurrence of the opening quote character. -/
def quoteScan (q : Char) : List Char → Option (List Char)
  | [] => none
  | c :: rest =>
    if c = q then some []
    else if c = lfChar ∨ c = crChar then none
    else (quoteScan q rest).map (fun inner => c :: inner)

/-- Scanner for `extractMessage` (lines 1712-1718): the unanchored search of
`/console\\.log\\((['"])(.*?)\\1/`, advancing the start position one character
at a time exactly as the regex engine does on a failed attempt. -/
def extractMessageAux : List Char → Option String
  | [] => none
  | c :: rest =>
    match matchLiteral "console.log(".data (c :: rest) with
    | some after =>
      (match after with
       | q :: r2 =>
         if q = '"' ∨ q = singleQuote then
           match quoteScan q r2 with
           | some inner => some ⟨inner⟩
           | none => extractMessageAux rest
         else extractMessageAux rest
       | [] => extractMessageAux rest)
    | none => extractMessageAux rest

/-- extractMessage (lines 1712-1718): first quoted string argument of a
logging call, if any. -/
def extractMessage (body : String) : Option String :=
  extractMessageAux body.data

/-- Exact scaled-decimal model of the JS numbers this pipeline handles: the
value `num / 10 ^ scale`.  Every number the modeled code produces is parsed
from a decimal literal or is a sum or difference of two such, so this
representation is exact; IEEE-754 rounding is not modeled.  Values are kept
normalized (no trailing zero in the fractional digits), which is also what
JS `String(number)` prints. -/
structure JsNum where
  num : Int
  scale : Nat
deriving DecidableEq

/-- Normalization worker: strip factors of ten while fractional digits
remain.  The fuel `scale` always suffices. -/
def JsNum.normAux : Nat → Int → Nat → JsNum
  | 0, n, s => { num := n, scale := s }
  | fuel + 1, n, s =>
    if s = 0 then { num := n, scale := 0 }
    else if n % 10 = 0 then JsNum.normAux fuel (n / 10) (s - 1)
    else { num := n, scale := s }

/-- Normalize a scaled decimal. -/
def JsNum.norm (q : JsNum) : JsNum := JsNum.normAux q.scale q.num q.scale

/-- Addition of two modeled numbers (exact). -/
def JsNum.add (a b : JsNum) : JsNum :=
  let s := max a.scale b.scale
  JsNum.norm { num := a.num * 10 ^ (s - a.scale) + b.num * 10 ^ (s - b.scale), scale := s }

/-- Subtraction of two modeled numbers (exact). -/
def JsNum.sub (a b : JsNum) : JsNum :=
  let s := max a.scale b.scale
  JsNum.norm { num := a.num * 10 ^ (s - a.scale) - b.num * 10 ^ (s - b.scale), scale := s }

/-- Negation. -/
def JsNum.neg (a : JsNum) : JsNum := { num := -a.num, scale := a.scale }

/-- Build the value of an unsigned decimal literal from its integer digits
and fractional digits. -/
def JsNum.ofDigits (ds fs : List Char) : JsNum :=
  JsNum.norm { num := (digitsToNat ds : Int) * 10 ^ fs.length + digitsToNat fs, scale := fs.length }

/-- LoopPart (line 795): the four editable fragments. -/
inductive LoopPart
  | start
  | condition
  | step
  | body
deriving DecidableEq

/-- LessonKey (line 796): `"for" | "while" | "foreach"`. -/
inductive LessonKey
  | forKey
  | whileKey
  | foreachKey
deriving DecidableEq

/-- The four text fragments of a lesson, `Record<LoopPart, string>`
(lines 825, 830).  The DOM lookup `getSpanText` (line 779) trims the span
text; the parser embeddings below apply that trim to these raw fields. -/
structure LoopTexts where
  start : String
  condition : String
  step : String
  body : String
deriving DecidableEq

/-- CounterConfig (lines 807-816).  The TS field `variable` is spelled
`varName` (`variable` is a Lean keyword) and `end` is spelled `endv`. -/
structure CounterConfig where
  varName : String
  start : Int
  comparator : Comparator
  endv : Int
  step : Int
  values : List Int
  nextValue : Int
  message : String
deriving DecidableEq

/-- CounterParse (lines 823-826). -/
structure CounterParse where
  config : CounterConfig
  texts : LoopTexts
deriving DecidableEq

/-- ForEachConfig (lines 818-821). -/
structure ForEachConfig where
  values : List JsNum
  message : String
deriving DecidableEq

/-- ForEachParse (lines 828-831). -/
structure ForEachParse where
  config : ForEachConfig
  texts : LoopTexts
deriving DecidableEq

/-- LessonEvent (lines 833-838); absent optional fields are `none`. -/
structure LessonEvent where
  highlight : Option LoopPart
  trace : Option String := none
  console : Option String := none
  counter : Option String := none
deriving DecidableEq

/-- LessonData (lines 840-845). -/
structure LessonData where
  events : List LessonEvent
  traceLines : List String
  consoleLines : List String
  finalCounter : String
deriving DecidableEq

/-- parseCounterConfig (lines 1303-1382), over the four raw span texts (the
`editableSpans` DOM lookup is UI glue outside the modeled core; `getSpanText`
trimming is applied here exactly as at lines 1309-1312). -/
def parseCounterConfig (raw : LoopTexts) : ParseResult CounterParse :=
  let startText := jsTrim raw.start
  let conditionText := jsTrim raw.condition
  let stepText := jsTrim raw.step
  let bodyText := jsTrim raw.body
  match matchStart startText with
  | none => ParseResult.error "Could not read the starting value. Keep it like let i = 1."
  | some (varName, startValue) =>
    match matchCondition varName conditionText with
    | none =>
      ParseResult.error ("Could not read the condition. Keep it like " ++ varName ++ " <= 5.")
    | some (comparator, endValue) =>
      match matchStep varName stepText with
      | none =>
        ParseResult.error
          ("Could not read the step. Keep it like " ++ varName ++ " = " ++ varName ++ " + 1.")
      | some (stepDirection, magnitude) =>
        if magnitude = 0 then ParseResult.error "The step must change the counter."
        else
          let stepValue : Int := stepDirection * magnitude
          if comparator = Comparator.le ∧ stepValue ≤ 0 then
            ParseResult.error "A <= comparison needs a positive step."
          else if comparator = Comparator.ge ∧ 0 ≤ stepValue then
            ParseResult.error "A >= comparison needs a negative step."
          else
            match deriveCounterValues startValue endValue comparator stepValue with
            | ParseResult.error e => ParseResult.error e
            | ParseResult.ok (values, next) =>
              ParseResult.ok
                { config :=
                    { varName := varName, start := startValue, comparator := comparator,
                      endv := endValue, step := stepValue, values := values,
                      nextValue := next,
                      message := (extractMessage bodyText).getD "Looping is learning" },
                  texts :=
                    { start := startText, condition := conditionText,
                      step := stepText, body := bodyText } }

/-- C10: the optional declarator of the start pattern is not required to be
followed by whitespace, so a lone identifier that merely begins with a
declarator keyword is split: `constant = 5` captures variable `ant` with
start value 5 (the greedy group consumes `const`), and `leti = 1` captures
variable `i`. -/
theorem c10_declaratorSplit :
    matchStart (jsTrim "constant = 5") = some ("ant", 5) ∧
    matchStart (jsTrim "leti = 1") = some ("i", 1) := by
  constructor
  · decide
  · decide

/-- Word characters of the JS `\b` assertion and `\w` class used by
`replaceIdentifiers` (line 1689): letters, digits and underscore (`$` is not
a word character there). -/
def isWordChar (c : Char) : Bool := c.isAlphanum || c = '_'

/-- The JS `\b` assertion between two (possibly absent) characters: it holds
when exactly one side is a word character, string edges counting as
non-word. -/
def boundaryOk (left right : Option Char) : Bool :=
  (left.elim false isWordChar) != (right.elim false isWordChar)

/-- Scanner for one global word-bounded literal replacement,
`value.replace(new RegExp("\\b" + escapeRegExp(token) + "\\b", "g"), rep)`
(lines 1688-1691): the token is matched literally (it was escaped), matches
are found left to right on the original string, are non-overlapping, and
both `\b` assertions are checked against the original characters.  `fuel`
starts at the string length; every step consumes at least one character, so
the `0` case is never reached from `replaceWordAll`. -/
def replaceScan (tok rep : List Char) : Nat → Option Char → List Char → List Char
  | 0, _, cs => cs
  | _ + 1, _, [] => []
  | fuel + 1, prev, c :: cs =>
    match matchLiteral tok (c :: cs) with
    | some rest =>
      if boundaryOk prev (some c) ∧ boundaryOk tok.getLast? rest.head? then
        rep ++ replaceScan tok rep fuel tok.getLast? rest
      else c :: replaceScan tok rep fuel (some c) cs
    | none => c :: replaceScan tok rep fuel (some c) cs

/-- One entry of the `replaceIdentifiers` fold.  An empty token is never
produced by the modeled callers; the `\b\b` pattern it would build is left
as the identity. -/
def replaceWordAll (value : String) (tok rep : String) : String :=
  if tok.data.isEmpty then value
  else ⟨replaceScan tok.data rep.data value.data.length none value.data⟩

/-- replaceIdentifiers (lines 1686-1693): fold the replacement entries in
order, each performing a global word-bounded replace on the previous
result.  Replacement records are modeled as association lists in entry
order. -/
def replaceIdentifiers (value : String) (replacements : List (String × String)) : String :=
  replacements.foldl (fun acc kv => replaceWordAll acc kv.1 kv.2) value

/-- First-match association-list lookup: the JS `key in obj` / `obj[key]`
pair on a plain record (prototype-chain keys such as `toString` are not
modeled; the callers only ever build one- and two-entry plain records of
loop identifiers). -/
def lookupEntry (repl : List (String × String)) (key : String) : Option String :=
  match repl with
  | [] => none
  | kv :: rest => if kv.1 = key then some kv.2 else lookupEntry rest key

/-- Body of the numeric-literal pattern `\d+(?:\.\d+)?$` after an optional
sign: a nonempty digit run, optionally a dot followed by a nonempty digit
run, reaching the end. -/
def numLitBody (cs : List Char) : Bool :=
  let ds := cs.takeWhile Char.isDigit
  let r := cs.dropWhile Char.isDigit
  !ds.isEmpty &&
    (r.isEmpty ||
      (match r with
       | c :: fs => c = '.' && !fs.isEmpty && fs.all Char.isDigit
       | [] => false))

/-- Anchored `-?\d+(?:\.\d+)?$`: the numeric-literal test of `evaluateToken`
(line 1667) and the third capture of its binary-expression pattern
(line 1673). -/
def matchNumLit (cs : List Char) : Bool :=
  match cs with
  | [] => false
  | c :: rest => if c = '-' then numLitBody rest else numLitBody (c :: rest)

/-- Exact value of a matched numeric literal (what JS `Number` returns on
text matched by `matchNumLit`). -/
def numLitValAbs (cs : List Char) : JsNum :=
  let ds := cs.takeWhile Char.isDigit
  match cs.dropWhile Char.isDigit with
  | c :: fs =>
    if c = '.' then JsNum.ofDigits ds fs
    else JsNum.ofDigits ds []
  | [] => JsNum.ofDigits ds []

/-- Signed variant of `numLitValAbs`. -/
def numLitVal (cs : List Char) : JsNum :=
  match cs with
  | [] => { num := 0, scale := 0 }
  | c :: rest => if c = '-' then JsNum.neg (numLitValAbs rest) else numLitValAbs (c :: rest)

/-- Decimal body accepted by JS `Number(string)` after the optional sign:
`digits`, `digits.`, `digits.digits` or `.digits`.  Exponent, hexadecimal,
octal, binary and `Infinity` forms are not modeled (none can appear in the
fragments the claims evaluate); an unparseable body is `none`, standing for
NaN. -/
def jsDecBody (cs : List Char) : Option JsNum :=
  let ds := cs.takeWhile Char.isDigit
  match cs.dropWhile Char.isDigit with
  | [] => if ds.isEmpty then none else some (JsNum.ofDigits ds [])
  | c :: r2 =>
    if c = '.' then
      let fs := r2.takeWhile Char.isDigit
      if !(r2.dropWhile Char.isDigit).isEmpty then none
      else if ds.isEmpty && fs.isEmpty then none
      else some (JsNum.ofDigits ds fs)
    else none

/-- JS `Number(string)` on the decimal forms: whitespace is trimmed, the
empty string is `0`, an optional sign precedes the decimal body. -/
def jsNumber (s : String) : Option JsNum :=
  match jsTrimList s.data with
  | [] => some { num := 0, scale := 0 }
  | c :: rest =>
    if c = '+' then jsDecBody rest
    else if c = '-' then (jsDecBody rest).map JsNum.neg
    else jsDecBody (c :: rest)

/-- JS `String(number)` on the modeled numbers: integers print as integers,
fractional values as their shortest decimal form. -/
def jsNumToString (q0 : JsNum) : String :=
  let q := q0.norm
  if q.scale = 0 then toString q.num
  else
    let digits := Nat.repr q.num.natAbs
    let digits :=
      if digits.length < q.scale + 1 then ⟨List.replicate (q.scale + 1 - digits.length) '0'⟩ ++ digits
      else digits
    (if q.num < 0 then "-" else "") ++ ⟨digits.data.take (digits.data.length - q.scale)⟩ ++ "." ++
      ⟨digits.data.drop (digits.data.length - q.scale)⟩

/-- The binary-expression pattern of `evaluateToken` (line 1673):
`^([a-zA-Z_$][\w$]*)\s*([+-])\s*(-?\d+(?:\.\d+)?)$`.  Returns the base
identifier, whether the operator is `+`, and the value of the numeric
literal. -/
def plusMatch (cs : List Char) : Option (String × Bool × JsNum) :=
  match cs with
  | [] => none
  | c :: _ =>
    if isIdentStart c then
      let ident := (c :: cs.tail).takeWhile isIdentChar
      match ((c :: cs.tail).dropWhile isIdentChar).dropWhile isJsSpace with
      | [] => none
      | d :: r2 =>
        if d = '+' ∨ d = '-' then
          let lit := r2.dropWhile isJsSpace
          if matchNumLit lit then some (⟨ident⟩, d = '+', numLitVal lit) else none
        else none
    else none

/-- evaluateToken (lines 1653-1684): quoted literal, backtick template,
numeric literal, direct replacement, identifier-plus-literal arithmetic, or
whole-token identifier substitution, in the source's order. -/
def evaluateToken (token : String) (replacements : List (String × String)) : String :=
  match jsTrimList token.data with
  | [] => ""
  | c :: rest =>
    let cs := c :: rest
    let trimmed : String := ⟨cs⟩
    let lastChar := rest.getLastD c
    if (c = '"' ∧ lastChar = '"') ∨ (c = singleQuote ∧ lastChar = singleQuote) then
      ⟨(cs.drop 1).dropLast⟩
    else if c = backtickChar ∧ lastChar = backtickChar then
      replaceIdentifiers ⟨(cs.drop 1).dropLast⟩ replacements
    else if matchNumLit cs then trimmed
    else
      match lookupEntry replacements trimmed with
      | some v => v
      | none =>
        match plusMatch cs with
        | some (base, isPlus, modifier) =>
          match jsNumber ((lookupEntry replacements base).getD base) with
          | some numericBase =>
            jsNumToString
              (if isPlus then JsNum.add numericBase modifier else JsNum.sub numericBase modifier)
          | none => replaceIdentifiers trimmed replacements
        | none => replaceIdentifiers trimmed replacements

/-- Scanner state of `splitArguments` (lines 1607-1611). -/
structure SplitState where
  args : List String
  current : List Char
  depth : Nat
  quote : Option Char
deriving DecidableEq

/-- The conditional push `if (current.trim().length > 0) args.push(current.trim())`. -/
def pushCurrent (st : SplitState) : List String :=
  if (jsTrimList st.current).isEmpty then st.args else st.args ++ [⟨jsTrimList st.current⟩]

/-- One character of the `splitArguments` scan (lines 1612-1646): inside a
quoted span every character is appended and the span closes on the opening
quote character only when the preceding input character is not a backslash;
outside, quotes open spans, parentheses track depth (`)` saturating at 0),
and a top-level comma pushes the trimmed current token. -/
def splitStep (st : SplitState) (prev : Option Char) (c : Char) : SplitState :=
  match st.quote with
  | some q =>
    if c = q ∧ ¬ prev = some backslashChar then
      { st with current := st.current ++ [c], quote := none }
    else { st with current := st.current ++ [c] }
  | none =>
    if c = '"' ∨ c = singleQuote ∨ c = backtickChar then
      { st with current := st.current ++ [c], quote := some c }
    else if c = '(' then { st with current := st.current ++ [c], depth := st.depth + 1 }
    else if c = ')' then { st with current := st.current ++ [c], depth := st.depth - 1 }
    else if c = ',' ∧ st.depth = 0 then { st with args := pushCurrent st, current := [] }
    else { st with current := st.current ++ [c] }

/-- Fold of `splitStep` over the input, carrying the previous character. -/
def splitArgsAux : Option Char → List Char → SplitState → SplitState
  | _, [], st => st
  | prev, c :: rest, st => splitArgsAux (some c) rest (splitStep st prev c)

/-- splitArguments (lines 1607-1651). -/
def splitArguments (value : String) : List String :=
  pushCurrent (splitArgsAux none value.data { args := [], current := [], depth := 0, quote := none })

/-- Suffix step of the `console.log` template pattern: the remainder after
`(` must be `inner ++ ")" ++ whitespace ++ optional ";"`, with `inner` free
of line terminators (`.` cannot cross them).  At most one split satisfies
this: any earlier `)` would leave a later `)` inside the `\s*;?$` tail, so
the greedy `(.*)` deterministically selects the last `)` whose tail is
whitespace then an optional final semicolon. -/
def callTail (cs : List Char) : Option (List Char) :=
  let rev := cs.reverse
  let rev1 :=
    match rev with
    | c :: rest => if c = ';' then rest else rev
    | [] => rev
  match rev1.dropWhile isJsSpace with
  | c :: innerRev =>
    if c = ')' ∧ innerRev.all (fun ch => !(ch = lfChar || ch = crChar)) then some innerRev.reverse
    else none
  | [] => none

/-- The anchored template pattern `^console\.log\s*\((.*)\)\s*;?$`
(line 1587), returning the argument-list capture. -/
def consoleLogMatch (cs : List Char) : Option (List Char) :=
  match matchLiteral "console.log".data cs with
  | none => none
  | some r1 =>
    match r1.dropWhile isJsSpace with
    | c :: r2 => if c = '(' then callTail r2 else none
    | [] => none

/-- JS `Array.prototype.join` with a separator. -/
def joinSep (sep : String) : List String → String
  | [] => ""
  | [s] => s
  | s :: rest => s ++ sep ++ joinSep sep rest

/-- formatConsoleStatement (lines 1582-1601). -/
def formatConsoleStatement (template : String) (replacements : List (String × String)) : String :=
  let trimmed := jsTrim template
  if trimmed = "" then "(no console output)"
  else
    match consoleLogMatch trimmed.data with
    | none => replaceIdentifiers trimmed replacements
    | some inner =>
      let args := splitArguments ⟨inner⟩
      if args.isEmpty then ""
      else
        let evaluated := (args.map (fun a => evaluateToken a replacements)).filter
          (fun p => !p.isEmpty)
        let output := jsTrim (joinSep " " evaluated)
        if output = "" then replaceIdentifiers trimmed replacements else output

/-- C5: the two documented templater examples: a quoted literal plus a
replaced identifier join with a space, and an identifier-plus-literal
argument evaluates numerically. -/
theorem c5_formatConsoleStatement :
    formatConsoleStatement "console.log(\"Hello\", i)" [("i", "3")] = "Hello 3" ∧
    formatConsoleStatement "console.log(i + 1)" [("i", "4")] = "5" := by
  constructor
  · decide
  · decide

/-- formatCounter (lines 1603-1605). -/
def formatCounter (varName : String) (value : Int) : String :=
  varName ++ " = " ++ toString value

/-- formatForEachCounter (lines 1699-1710): `index = -- (value --)` before
the loop, `(done)` once the index reaches the total, `(waiting)` when the
value is undefined, otherwise the index/value pair. -/
def formatForEachCounter (index : Option Nat) (value : Option JsNum) (total : Option Nat) :
    String :=
  match index with
  | none => "index = -- (value --)"
  | some i =>
    if total.elim false (fun t => decide (t ≤ i)) then "index = " ++ Nat.repr i ++ " (done)"
    else
      match value with
      | none => "index = " ++ Nat.repr i ++ " (waiting)"
      | some v => "index = " ++ Nat.repr i ++ " (value " ++ jsNumToString v ++ ")"

/-- Condition trace of one counter iteration (lines 1469-1481); the source
fixes `conditionYes` to `true` for every collected value. -/
def counterConditionTrace (cfg : CounterConfig) (value : Int) : String :=
  let conditionYes : Bool := true
  "Check " ++ cfg.varName ++ " " ++ comparatorText cfg.comparator ++ " " ++ toString cfg.endv ++
    " with " ++ cfg.varName ++ " = " ++ toString value ++ " -> " ++
    (if conditionYes then "yes" else "no")

/-- Body trace of one counter iteration (line 1486). -/
def counterBodyTrace (cfg : CounterConfig) (iteration : Nat) (value : Int) : String :=
  "Body (iteration " ++ Nat.repr iteration ++ "): run console.log with " ++ cfg.varName ++
    " = " ++ toString value

/-- Step trace of one counter iteration (line 1492). -/
def counterStepTrace (cfg : CounterConfig) (texts : LoopTexts) (next : Int) : String :=
  "Update: " ++ jsTrim texts.step ++ " -> " ++ formatCounter cfg.varName next

/-- Console line of one counter iteration (line 1485). -/
def counterConsoleLine (texts : LoopTexts) (cfg : CounterConfig) (value : Int) : String :=
  formatConsoleStatement texts.body [(cfg.varName, toString value)]

/-- Final condition trace (lines 1497-1508). -/
def counterFinalConditionTrace (cfg : CounterConfig) : String :=
  "Check " ++ cfg.varName ++ " " ++ comparatorText cfg.comparator ++ " " ++ toString cfg.endv ++
    " with " ++ cfg.varName ++ " = " ++ toString cfg.nextValue ++ " -> no"

/-- The three events one visited value contributes (lines 1466-1495); `p` is
the 0-based index paired with the value. -/
def counterItemEvents (cfg : CounterConfig) (texts : LoopTexts) (p : Nat × Int) :
    List LessonEvent :=
  [{ highlight := some LoopPart.condition, trace := some (counterConditionTrace cfg p.2),
     counter := some (formatCounter cfg.varName p.2) },
   { highlight := some LoopPart.body, trace := some (counterBodyTrace cfg (p.1 + 1) p.2),
     console := some (counterConsoleLine texts cfg p.2),
     counter := some (formatCounter cfg.varName p.2) },
   { highlight := some LoopPart.step, trace := some (counterStepTrace cfg texts (p.2 + cfg.step)),
     counter := some (formatCounter cfg.varName (p.2 + cfg.step)) }]

/-- buildCounterLessonData (lines 1454-1520). -/
def buildCounterLessonData (lesson : LessonKey) (parse : CounterParse) : LessonData :=
  let cfg := parse.config
  let texts := parse.texts
  let startCounter := formatCounter cfg.varName cfg.start
  let startLabel := if lesson = LessonKey.forKey then "Start" else "Setup"
  let startTrace := startLabel ++ ": " ++ jsTrim texts.start ++ " -> " ++ startCounter
  let finalCounter := formatCounter cfg.varName cfg.nextValue
  { events :=
      { highlight := some LoopPart.start, trace := some startTrace,
        counter := some startCounter }
        :: (cfg.values.enum.flatMap (counterItemEvents cfg texts)
          ++ [{ highlight := some LoopPart.condition,
                trace := some (counterFinalConditionTrace cfg), counter := some finalCounter },
              { highlight := none, counter := some finalCounter }]),
    traceLines :=
      startTrace
        :: (cfg.values.enum.flatMap
            (fun p =>
              [counterConditionTrace cfg p.2, counterBodyTrace cfg (p.1 + 1) p.2,
                counterStepTrace cfg texts (p.2 + cfg.step)])
          ++ [counterFinalConditionTrace cfg]),
    consoleLines := cfg.values.map (fun v => counterConsoleLine texts cfg v),
    finalCounter := finalCounter }

/-- The counter branch of `collectLessonData` (lines 1288-1301): parse, then
build; a parse failure is returned unchanged and no LessonData exists. -/
def collectCounterLessonData (lesson : LessonKey) (raw : LoopTexts) : ParseResult LessonData :=
  match parseCounterConfig raw with
  | ParseResult.error e => ParseResult.error e
  | ParseResult.ok p => ParseResult.ok (buildCounterLessonData lesson p)

/-- Projection used to state the round-trip claims: the visited values of a
successful parse together with the final counter of the built lesson data. -/
def counterRunSummary (lesson : LessonKey) (raw : LoopTexts) : Option (List Int × String) :=
  match parseCounterConfig raw with
  | ParseResult.ok p => some (p.config.values, (buildCounterLessonData lesson p).finalCounter)
  | ParseResult.error _ => none

/-- Default fragments of the `for` lesson (lines 919-924). -/
def forDefaults : LoopTexts :=
  { start := "let i = 1", condition := "i <= 5", step := "i = i + 1",
    body := "console.log(\"Looping is learning\", i);" }

/-- Default fragments of the `while` lesson (lines 925-930). -/
def whileDefaults : LoopTexts :=
  { start := "let i = 1;", condition := "i <= 5", step := "i = i + 1;",
    body := "console.log(\"Looping is learning\", i);" }

/-- Default fragments of the `forEach` lesson (lines 931-936). -/
def foreachDefaults : LoopTexts :=
  { start := "const values = [2, 4, 6];", condition := "values.forEach((value, index) => \x7b",
    step := "// forEach moves to the next item automatically",
    body := "console.log(\"Value\", index, value);" }

/-- C2: the documented `for` defaults parse and visit exactly 1,2,3,4,5 with
final counter `i = 6`, and the `while` defaults (same fragments up to
trailing semicolons) yield the identical values and final counter. -/
theorem c2_counterDefaults :
    counterRunSummary LessonKey.forKey forDefaults = some ([1, 2, 3, 4, 5], "i = 6") ∧
    counterRunSummary LessonKey.whileKey whileDefaults = some ([1, 2, 3, 4, 5], "i = 6") := by
  exact ⟨by decide, by decide⟩

/-- The `(.*)` capture attempted at one `[`: the run of non-line-terminator
characters up to the last `]` on the same line, or failure when no `]`
follows on the line. -/
def bracketInner (cs : List Char) : Option (List Char) :=
  let line := cs.takeWhile (fun c => !(c = lfChar || c = crChar))
  match line.reverse.dropWhile (fun c => !(c = ']')) with
  | [] => none
  | _ :: innerRev => some innerRev.reverse

/-- The unanchored greedy search `/\[(.*)\]/` (line 1392): attempt at each
position left to right, advancing one character on failure, exactly as the
regex engine scans. -/
def bracketMatch : List Char → Option (List Char)
  | [] => none
  | c :: rest =>
    if c = '[' then
      match bracketInner rest with
      | some inner => some inner
      | none => bracketMatch rest
    else bracketMatch rest

/-- JS `String.prototype.split(",")`. -/
def splitOnComma : List Char → List (List Char)
  | [] => [[]]
  | c :: rest =>
    if c = ',' then [] :: splitOnComma rest
    else
      match splitOnComma rest with
      | h :: t => (c :: h) :: t
      | [] => [[c]]

/-- The item loop of `parseForEachConfig` (lines 1409-1419): every item must
be a finite number; the first failure aborts. -/
def parseNumbers : List (List Char) → Option (List JsNum)
  | [] => some []
  | item :: rest =>
    match jsNumber ⟨item⟩ with
    | none => none
    | some v => (parseNumbers rest).map (fun vs => v :: vs)

/-- parseForEachConfig (lines 1384-1429), over the raw span texts as for
`parseCounterConfig`. -/
def parseForEachConfig (raw : LoopTexts) : ParseResult ForEachParse :=
  let arrayText := jsTrim raw.start
  let bodyText := jsTrim raw.body
  match bracketMatch arrayText.data with
  | none => ParseResult.error "Could not read the array. Keep it like const values = [1, 2, 3];"
  | some inner =>
    let rawItems := ((splitOnComma inner).map jsTrimList).filter (fun item => !item.isEmpty)
    if rawItems.isEmpty then ParseResult.error "Add at least one number to the array."
    else
      match parseNumbers rawItems with
      | none => ParseResult.error "Only numbers are supported in this playground array."
      | some values =>
        ParseResult.ok
          { config := { values := values, message := (extractMessage bodyText).getD "Value" },
            texts :=
              { start := arrayText, condition := jsTrim raw.condition,
                step := jsTrim raw.step, body := bodyText } }

/-- Condition trace of one forEach item (line 1533). -/
def foreachConditionTrace (i : Nat) : String :=
  "Check next item (index " ++ Nat.repr i ++ ") -> yes"

/-- Body trace of one forEach item (line 1545). -/
def foreachBodyTrace (i : Nat) (v : JsNum) : String :=
  "Callback for index " ++ Nat.repr i ++ " with value " ++ jsNumToString v

/-- Step trace of one forEach item (line 1555): the literal trimmed step
fragment, or the fallback sentence when it is empty. -/
def foreachStepTrace (texts : LoopTexts) : String :=
  if jsTrim texts.step = "" then "forEach moves to the next item." else jsTrim texts.step

/-- Console line of one forEach item (lines 1541-1544); note the entry
order of the replacement record: `value` first, then `index`. -/
def foreachConsoleLine (texts : LoopTexts) (i : Nat) (v : JsNum) : String :=
  formatConsoleStatement texts.body [("value", jsNumToString v), ("index", Nat.repr i)]

/-- The three events one forEach item contributes (lines 1532-1562); the
step event's counter previews index `p.1 + 1` with the (possibly absent)
value at that index. -/
def foreachItemEvents (cfg : ForEachConfig) (texts : LoopTexts) (p : Nat × JsNum) :
    List LessonEvent :=
  [{ highlight := some LoopPart.condition, trace := some (foreachConditionTrace p.1),
     counter := some (formatForEachCounter (some p.1) (some p.2) (some cfg.values.length)) },
   { highlight := some LoopPart.body, trace := some (foreachBodyTrace p.1 p.2),
     console := some (foreachConsoleLine texts p.1 p.2),
     counter := some (formatForEachCounter (some p.1) (some p.2) (some cfg.values.length)) },
   { highlight := some LoopPart.step, trace := some (foreachStepTrace texts),
     counter :=
       some (formatForEachCounter (some (p.1 + 1)) cfg.values[p.1 + 1]?
         (some cfg.values.length)) }]

/-- buildForEachLessonData (lines 1522-1580). -/
def buildForEachLessonData (parse : ForEachParse) : LessonData :=
  let cfg := parse.config
  let texts := parse.texts
  let n := cfg.values.length
  let startTrace := "Start: array has " ++ Nat.repr n ++ " item(s)."
  let finalTrace := "Check next item -> no (array finished)."
  let finalCounter := formatForEachCounter (some n) none (some n)
  { events :=
      { highlight := some LoopPart.start, trace := some startTrace,
        counter := some (formatForEachCounter none none none) }
        :: (cfg.values.enum.flatMap (foreachItemEvents cfg texts)
          ++ [{ highlight := some LoopPart.condition, trace := some finalTrace,
                counter := some finalCounter },
              { highlight := none, counter := some finalCounter }]),
    traceLines :=
      startTrace
        :: (cfg.values.enum.flatMap
            (fun p => [foreachConditionTrace p.1, foreachBodyTrace p.1 p.2, foreachStepTrace texts])
          ++ [finalTrace]),
    consoleLines := cfg.values.enum.map (fun p => foreachConsoleLine texts p.1 p.2),
    finalCounter := finalCounter }

/-- The forEach branch of `collectLessonData` (lines 1288-1295). -/
def collectForEachLessonData (raw : LoopTexts) : ParseResult LessonData :=
  match parseForEachConfig raw with
  | ParseResult.error e => ParseResult.error e
  | ParseResult.ok p => ParseResult.ok (buildForEachLessonData p)

/-- C8: the forEach defaults parse and build exactly three
condition/body/step event groups with the documented counters and the final
counter `index = 3 (done)`. -/
theorem c8_foreachDefaults :
    collectForEachLessonData foreachDefaults =
      ParseResult.ok
        { events :=
            [{ highlight := some LoopPart.start, trace := some "Start: array has 3 item(s).",
               counter := some "index = -- (value --)" },
             { highlight := some LoopPart.condition,
               trace := some "Check next item (index 0) -> yes",
               counter := some "index = 0 (value 2)" },
             { highlight := some LoopPart.body, trace := some "Callback for index 0 with value 2",
               console := some "Value 0 2", counter := some "index = 0 (value 2)" },
             { highlight := some LoopPart.step,
               trace := some "// forEach moves to the next item automatically",
               counter := some "index = 1 (value 4)" },
             { highlight := some LoopPart.condition,
               trace := some "Check next item (index 1) -> yes",
               counter := some "index = 1 (value 4)" },
             { highlight := some LoopPart.body, trace := some "Callback for index 1 with value 4",
               console := some "Value 1 4", counter := some "index = 1 (value 4)" },
             { highlight := some LoopPart.step,
               trace := some "// forEach moves to the next item automatically",
               counter := some "index = 2 (value 6)" },
             { highlight := some LoopPart.condition,
               trace := some "Check next item (index 2) -> yes",
               counter := some "index = 2 (value 6)" },
             { highlight := some LoopPart.body, trace := some "Callback for index 2 with value 6",
               console := some "Value 2 6", counter := some "index = 2 (value 6)" },
             { highlight := some LoopPart.step,
               trace := some "// forEach moves to the next item automatically",
               counter := some "index = 3 (done)" },
             { highlight := some LoopPart.condition,
               trace := some "Check next item -> no (array finished).",
               counter := some "index = 3 (done)" },
             { highlight := none, counter := some "index = 3 (done)" }],
          traceLines :=
            ["Start: array has 3 item(s).",
             "Check next item (index 0) -> yes", "Callback for index 0 with value 2",
             "// forEach moves to the next item automatically",
             "Check next item (index 1) -> yes", "Callback for index 1 with value 4",
             "// forEach moves to the next item automatically",
             "Check next item (index 2) -> yes", "Callback for index 2 with value 6",
             "// forEach moves to the next item automatically",
             "Check next item -> no (array finished)."],
          consoleLines := ["Value 0 2", "Value 1 4", "Value 2 6"],
          finalCounter := "index = 3 (done)" } := by
  decide

/-- C3: whenever the three structural stages succeed with a nonzero
magnitude, a `<=` comparator with a negative step (direction `-1`) fails
with exactly the positive-step message, and a `>=` comparator with a
positive step (direction `1`) fails with exactly the negative-step message;
in both cases no LessonData is produced. -/
theorem c3_signMismatch (lesson : LessonKey) (raw : LoopTexts) (v : String) (s e : Int)
    (m : Nat) (hm : m ≠ 0) (hs : matchStart (jsTrim raw.start) = some (v, s)) :
    (matchCondition v (jsTrim raw.condition) = some (Comparator.le, e) →
      matchStep v (jsTrim raw.step) = some (-1, m) →
      collectCounterLessonData lesson raw =
        ParseResult.error "A <= comparison needs a positive step.")
    ∧ (matchCondition v (jsTrim raw.condition) = some (Comparator.ge, e) →
      matchStep v (jsTrim raw.step) = some (1, m) →
      collectCounterLessonData lesson raw =
        ParseResult.error "A >= comparison needs a negative step.") := by
  constructor
  · intro hc hst
    have hneg : (-1 : Int) * (m : Int) ≤ 0 := by omega
    simp only [collectCounterLessonData, parseCounterConfig, hs, hc, hst]
    simp [hm, hneg]
  · intro hc hst
    have hpos : (0 : Int) ≤ 1 * (m : Int) := by omega
    simp only [collectCounterLessonData, parseCounterConfig, hs, hc, hst]
    simp [hm, hpos]

/-- Witness for C3: concrete sign-mismatched lessons hit both messages. -/
theorem c3_signMismatch_witness :
    collectCounterLessonData LessonKey.forKey
        { start := "let i = 1", condition := "i <= 5", step := "i = i - 1", body := "" } =
      ParseResult.error "A <= comparison needs a positive step." ∧
    collectCounterLessonData LessonKey.whileKey
        { start := "let i = 9", condition := "i >= 2", step := "i = i + 3", body := "" } =
      ParseResult.error "A >= comparison needs a negative step." := by
  constructor
  · exact (c3_signMismatch LessonKey.forKey
      { start := "let i = 1", condition := "i <= 5", step := "i = i - 1", body := "" }
      "i" 1 5 1 (by decide) (by decide)).1 (by decide) (by decide)
  · exact (c3_signMismatch LessonKey.whileKey
      { start := "let i = 9", condition := "i >= 2", step := "i = i + 3", body := "" }
      "i" 9 2 3 (by decide) (by decide)).2 (by decide) (by decide)

/-- Counterexample to C6 as stated: with an empty argument list the
function returns the empty string (line 1593), not the whole-string
substitution of the trimmed template. -/
theorem c6_emptyFallback_counterexample :
    formatConsoleStatement "console.log()" [("i", "3")] = "" ∧
    replaceIdentifiers (jsTrim "console.log()") [("i", "3")] = "console.log()" ∧
    ("" : String) ≠ "console.log()" := by
  refine ⟨by decide, by decide, by decide⟩

/-- C6 amended: a blank template yields the fixed placeholder; a call-shaped
template with an empty split argument list returns the empty string; and a
call-shaped template whose nonempty argument list evaluates and joins to a
blank string falls back to whole-string substitution of the trimmed
template. -/
theorem c6_emptyFallback_amended :
    (∀ (template : String) (repl : List (String × String)),
      jsTrim template = "" → formatConsoleStatement template repl = "(no console output)")
    ∧ (∀ (template : String) (repl : List (String × String)) (inner : List Char),
      jsTrim template ≠ "" → consoleLogMatch (jsTrim template).data = some inner →
      splitArguments ⟨inner⟩ = [] → formatConsoleStatement template repl = "")
    ∧ (∀ (template : String) (repl : List (String × String)) (inner : List Char),
      jsTrim template ≠ "" → consoleLogMatch (jsTrim template).data = some inner →
      splitArguments ⟨inner⟩ ≠ [] →
      jsTrim (joinSep " "
        (((splitArguments ⟨inner⟩).map (fun a => evaluateToken a repl)).filter
          (fun p => !p.isEmpty))) = "" →
      formatConsoleStatement template repl = replaceIdentifiers (jsTrim template) repl) := by
  refine ⟨?_, ?_, ?_⟩
  · intro template repl h
    simp [formatConsoleStatement, h]
  · intro template repl inner h1 h2 h3
    simp [formatConsoleStatement, h1, h2, h3]
  · intro template repl inner h1 h2 h3 h4
    simp only [formatConsoleStatement, h1, h2, if_neg h1]
    have h3' : (splitArguments ⟨inner⟩).isEmpty = false := by
      cases hsa : splitArguments ⟨inner⟩ with
      | nil => exact absurd hsa h3
      | cons a as => simp
    simp [h3', h4]

/-- Witness for C6 amended: the three branches at concrete inputs. -/
theorem c6_emptyFallback_witness :
    formatConsoleStatement "   " [] = "(no console output)" ∧
    formatConsoleStatement "console.log( )" [("i", "9")] = "" ∧
    formatConsoleStatement "console.log(\"\")" [("i", "9")] = "console.log(\"\")" := by
  refine ⟨?_, ?_, ?_⟩
  · exact c6_emptyFallback_amended.1 "   " [] (by decide)
  · exact c6_emptyFallback_amended.2.1 "console.log( )" [("i", "9")] " ".data
      (by decide) (by decide) (by decide)
  · have h := c6_emptyFallback_amended.2.2 "console.log(\"\")" [("i", "9")] "\"\"".data
      (by decide) (by decide) (by decide) (by decide)
    rw [h]
    decide

/-- Counterexample to C7 as stated: in `"a\", b"` the inner quote preceded
by a backslash does not close the span, so the comma stays quoted and a
single argument results; the split claimed by C7 does not happen. -/
theorem c7_quoteEscape_counterexample :
    splitArguments "\"a\\\", b\"" = ["\"a\\\", b\""] ∧
    splitArguments "\"a\\\", b\"" ≠ ["\"a\\\"", "b\""] := by
  refine ⟨by decide, by decide⟩

/-- C7 amended: the scanner's check `value[i-1] !== "\\"` (line 1616) means
a backslash does escape the matching quote character: an occurrence of the
opening quote immediately preceded by a backslash keeps the span open (and
is still appended), while the opening quote preceded by anything else closes
the span. -/
theorem c7_quoteEscape_amended :
    (∀ (st : SplitState) (q : Char), st.quote = some q →
      (splitStep st (some backslashChar) q).quote = some q ∧
      (splitStep st (some backslashChar) q).current = st.current ++ [q])
    ∧ (∀ (st : SplitState) (q : Char) (prev : Option Char), st.quote = some q →
      prev ≠ some backslashChar → (splitStep st prev q).quote = none) := by
  constructor
  · intro st q h
    simp [splitStep, h]
  · intro st q prev h hne
    simp [splitStep, h, hne]

/-- Witness for C7 amended: concrete scanner states mid-way through a
double-quoted span. -/
theorem c7_quoteEscape_witness :
    (splitStep { args := [], current := "\"a\\".data, depth := 0, quote := some '"' }
        (some backslashChar) '"').quote = some '"' ∧
    (splitStep { args := [], current := "\"ab".data, depth := 0, quote := some '"' }
        (some 'b') '"').quote = none := by
  constructor
  · exact (c7_quoteEscape_amended.1
      { args := [], current := "\"a\\".data, depth := 0, quote := some '"' } '"' rfl).1
  · exact c7_quoteEscape_amended.2
      { args := [], current := "\"ab".data, depth := 0, quote := some '"' } '"' (some 'b') rfl
      (by decide)

lemma flatMapFixed_length {α β : Type} (f : α → List β) (hf : ∀ a, (f a).length = 3) :
    ∀ l : List α, (l.flatMap f).length = 3 * l.length := by
  intro l
  induction l with
  | nil => simp
  | cons a l ih =>
    rw [List.flatMap_cons, List.length_append, hf a, ih, List.length_cons]
    ring

lemma flatMapFixed_getElem {α β : Type} (f : α → List β) (hf : ∀ a, (f a).length = 3) :
    ∀ (l : List α) (i k : Nat) (a : α), k < 3 → l[i]? = some a →
      (l.flatMap f)[3 * i + k]? = (f a)[k]? := by
  intro l
  induction l with
  | nil => intro i k a _ h; simp at h
  | cons b l ih =>
    intro i k a hk h
    cases i with
    | zero =>
      have hb : b = a := by simpa using h
      subst hb
      rw [List.flatMap_cons, Nat.mul_zero, Nat.zero_add,
        List.getElem?_append_left (by rw [hf b]; exact hk)]
    | succ i =>
      have h' : l[i]? = some a := by simpa using h
      rw [List.flatMap_cons, List.getElem?_append_right (by rw [hf b]; omega)]
      have harith : 3 * (i + 1) + k - (f b).length = 3 * i + k := by rw [hf b]; omega
      rw [harith, ih i k a hk h']

lemma enumFrom_getElem {α : Type} :
    ∀ (l : List α) (n i : Nat) (a : α), l[i]? = some a →
      (l.enumFrom n)[i]? = some (n + i, a) := by
  intro l
  induction l with
  | nil => intro n i a h; simp at h
  | cons b l ih =>
    intro n i a h
    cases i with
    | zero =>
      have hb : b = a := by simpa using h
      subst hb
      simp [List.enumFrom]
    | succ i =>
      have h' : l[i]? = some a := by simpa using h
      have hrec := ih (n + 1) i a h'
      rw [show List.enumFrom n (b :: l) = (n, b) :: List.enumFrom (n + 1) l from rfl,
        List.getElem?_cons_succ, hrec]
      have harith : n + 1 + i = n + (i + 1) := by omega
      rw [harith]

lemma enum_getElem {α : Type} (l : List α) (i : Nat) (a : α) (h : l[i]? = some a) :
    l.enum[i]? = some (i, a) := by
  have := enumFrom_getElem l 0 i a h
  simpa [List.enum] using this

/-- C9 amended: in `buildForEachLessonData` the step event of item `i`
(event index `3 * i + 3`: one start event, then three events per item)
carries the literal trimmed step fragment (or the fallback sentence) as its
trace and a counter previewing the next index: `index = i+1 (value v)` when
a value at `i + 1` exists, and `index = i+1 (done)` when none exists — the
done branch of `formatForEachCounter` fires before its waiting branch
because `i + 1` has reached the total, so the step event of the last item
says `(done)`, never `(waiting)`. -/
theorem c9_stepPreview_amended (p : ForEachParse) (i : Nat)
    (hi : i < p.config.values.length) :
    (buildForEachLessonData p).events[3 * i + 3]? =
      some { highlight := some LoopPart.step,
             trace := some (if jsTrim p.texts.step = "" then "forEach moves to the next item."
               else jsTrim p.texts.step),
             console := none,
             counter := some (if h : i + 1 < p.config.values.length
               then "index = " ++ Nat.repr (i + 1) ++ " (value " ++
                 jsNumToString p.config.values[i + 1] ++ ")"
               else "index = " ++ Nat.repr (i + 1) ++ " (done)") } := by
  have hf : ∀ pr : Nat × JsNum, (foreachItemEvents p.config p.texts pr).length = 3 :=
    fun pr => rfl
  have hev : (buildForEachLessonData p).events =
      { highlight := some LoopPart.start,
        trace := some ("Start: array has " ++ Nat.repr p.config.values.length ++ " item(s)."),
        counter := some (formatForEachCounter none none none) }
        :: (p.config.values.enum.flatMap (foreachItemEvents p.config p.texts)
          ++ [{ highlight := some LoopPart.condition,
                trace := some "Check next item -> no (array finished).",
                counter := some (formatForEachCounter (some p.config.values.length) none
                  (some p.config.values.length)) },
              { highlight := none,
                counter := some (formatForEachCounter (some p.config.values.length) none
                  (some p.config.values.length)) }]) := rfl
  rw [hev, show 3 * i + 3 = (3 * i + 2) + 1 by omega, List.getElem?_cons_succ,
    List.getElem?_append_left
      (by rw [flatMapFixed_length (foreachItemEvents p.config p.texts) hf, List.enum_length]; omega),
    flatMapFixed_getElem (foreachItemEvents p.config p.texts) hf p.config.values.enum i 2
      (i, p.config.values[i]) (by omega)
      (enum_getElem p.config.values i p.config.values[i] (List.getElem?_eq_getElem hi))]
  have hstep : (foreachItemEvents p.config p.texts (i, p.config.values[i]))[2]? =
      some { highlight := some LoopPart.step, trace := some (foreachStepTrace p.texts),
             console := none,
             counter := some (formatForEachCounter (some (i + 1)) p.config.values[i + 1]?
               (some p.config.values.length)) } := rfl
  rw [hstep]
  by_cases h : i + 1 < p.config.values.length
  · rw [List.getElem?_eq_getElem h]
    simp [foreachStepTrace, formatForEachCounter, Nat.not_le.mpr h, dif_pos h]
  · rw [List.getElem?_eq_none (by omega : p.config.values.length ≤ i + 1)]
    simp [foreachStepTrace, formatForEachCounter, Nat.le_of_not_lt h, dif_neg h]

/-- Sample parse of the forEach defaults, used to exercise C9 concretely. -/
def foreachSampleParse : ForEachParse :=
  { config :=
      { values := [{ num := 2, scale := 0 }, { num := 4, scale := 0 }, { num := 6, scale := 0 }],
        message := "Value" },
    texts := foreachDefaults }

/-- Counterexample to C9 as stated: for the default values the step event of
the last item (event index 9) carries the counter `index = 3 (done)`, and
the text `(waiting)` occurs nowhere in it. -/
theorem c9_stepPreview_counterexample :
    (buildForEachLessonData foreachSampleParse).events[9]? =
      some { highlight := some LoopPart.step,
             trace := some "// forEach moves to the next item automatically",
             console := none, counter := some "index = 3 (done)" } ∧
    ¬ ("(waiting)".data <:+: "index = 3 (done)".data) := by
  refine ⟨by decide, by decide⟩

/-- Witness for C9 amended: item 1 of the sample parse previews index 2 with
value 6. -/
theorem c9_stepPreview_witness :
    (buildForEachLessonData foreachSampleParse).events[6]? =
      some { highlight := some LoopPart.step,
             trace := some "// forEach moves to the next item automatically",
             console := none, counter := some "index = 2 (value 6)" } := by
  have h := c9_stepPreview_amended foreachSampleParse 1 (by decide)
  rw [show (6 : Nat) = 3 * 1 + 3 by omega, h]
  decide

lemma matchLiteral_append (xs ys : List Char) : matchLiteral xs (xs ++ ys) = some ys := by
  induction xs with
  | nil => rfl
  | cons a l ih => simp [matchLiteral, ih]

lemma getLast?_append_ne {α : Type} (xs ys : List α) (h : ys ≠ []) :
    (xs ++ ys).getLast? = ys.getLast? := by
  rw [List.getLast?_append]
  cases hl : ys.getLast? with
  | none => exact absurd (List.getLast?_eq_none_iff.mp hl) h
  | some b => rfl

lemma identStart_identChar (c : Char) (h : isIdentStart c = true) : isIdentChar c = true := by
  simp only [isIdentStart, Bool.or_eq_true, decide_eq_true_eq] at h
  simp only [isIdentChar, Char.isAlphanum, Bool.or_eq_true, decide_eq_true_eq]
  tauto

lemma identChar_not_space (c : Char) (h : isIdentChar c = true) : isJsSpace c = false := by
  by_contra hs
  rw [Bool.not_eq_false] at hs
  have hs' : c = ' ' ∨ c = tabChar ∨ c = lfChar ∨ c = crChar ∨ c = vtChar ∨ c = ffChar := by
    simpa [isJsSpace, or_assoc] using hs
  rcases hs' with rfl | rfl | rfl | rfl | rfl | rfl <;> exact absurd h (by decide)

lemma digit_not_space (c : Char) (h : c.isDigit = true) : isJsSpace c = false := by
  by_contra hs
  rw [Bool.not_eq_false] at hs
  have hs' : c = ' ' ∨ c = tabChar ∨ c = lfChar ∨ c = crChar ∨ c = vtChar ∨ c = ffChar := by
    simpa [isJsSpace, or_assoc] using hs
  rcases hs' with rfl | rfl | rfl | rfl | rfl | rfl <;> exact absurd h (by decide)

lemma jsIdent_chars (s : String) (h : isJsIdent s = true) :
    ∀ c ∈ s.data, isIdentChar c = true := by
  intro c hc
  unfold isJsIdent at h
  rcases hs : s.data with _ | ⟨a, rest⟩
  · rw [hs] at hc
    simp at hc
  · rw [hs] at h hc
    simp only [Bool.and_eq_true] at h
    rcases List.mem_cons.mp hc with rfl | hmem
    · exact identStart_identChar c h.1
    · exact List.all_eq_true.mp h.2 c hmem

lemma condAfterVar_identHead (c : Char) (rest : List Char) (hc : isIdentChar c = true) :
    condAfterVar (c :: rest) = none := by
  have hns : isJsSpace c = false := identChar_not_space c hc
  have h1 : (c :: rest).dropWhile isJsSpace = c :: rest := by
    rw [List.dropWhile_cons, if_neg (by simp [hns])]
  simp only [condAfterVar, h1]
  cases rest with
  | nil => rfl
  | cons c2 r =>
    have h2 : ¬ (c = '<' ∧ c2 = '=') := fun hcon => by
      rw [hcon.1] at hc; exact absurd hc (by decide)
    have h3 : ¬ (c = '>' ∧ c2 = '=') := fun hcon => by
      rw [hcon.1] at hc; exact absurd hc (by decide)
    simp [h2, h3]

lemma matchLit_var_space :
    ∀ (v w : List Char), (∀ c ∈ v, isIdentChar c = true) → (∀ c ∈ w, isIdentChar c = true) →
      v ≠ w → ∀ (t r : List Char), matchLiteral v (w ++ ' ' :: t) = some r →
      ∃ (c : Char) (rest : List Char), isIdentChar c = true ∧ r = c :: rest := by
  intro v
  induction v with
  | nil =>
    intro w hv hw hne t r h
    cases w with
    | nil => exact absurd rfl hne
    | cons b w' =>
      simp only [matchLiteral, List.cons_append, Option.some.injEq] at h
      exact ⟨b, w' ++ ' ' :: t, hw b (List.mem_cons_self b w'), h.symm⟩
  | cons a v' ih =>
    intro w hv hw hne t r h
    cases w with
    | nil =>
      have ha : isIdentChar a = true := hv a (List.mem_cons_self a v')
      have hspace : ¬ a = ' ' := fun e => by rw [e] at ha; exact absurd ha (by decide)
      simp [matchLiteral, hspace] at h
    | cons b w' =>
      by_cases hab : a = b
      · subst hab
        simp only [matchLiteral, List.cons_append, if_pos rfl] at h
        exact ih w' (fun c hc => hv c (List.mem_cons_of_mem a hc))
          (fun c hc => hw c (List.mem_cons_of_mem a hc))
          (fun e => hne (by rw [e])) t r h
      · simp [matchLiteral, hab] at h

lemma stripSemi_digit_end (xs ds : List Char) (hne : ds.isEmpty = false)
    (hds : ds.all Char.isDigit = true) : stripSemi (xs ++ ds) = xs ++ ds := by
  have hds_ne : ds ≠ [] := by
    cases ds with
    | nil => simp at hne
    | cons a l => simp
  have hdig : (ds.getLast hds_ne).isDigit = true :=
    List.all_eq_true.mp hds _ (List.getLast_mem hds_ne)
  have hlast : (xs ++ ds).getLast? = some (ds.getLast hds_ne) := by
    rw [getLast?_append_ne xs ds hds_ne, List.getLast?_eq_getLast ds hds_ne]
  have hnot : ¬ (xs ++ ds).getLast? = some ';' := by
    rw [hlast]
    intro e
    rw [Option.some.inj e] at hdig
    exact absurd hdig (by decide)
  simp only [stripSemi, if_neg hnot]

/-- Condition fragment built from an identifier, a comparator and a signed
integer literal separated by single spaces: the shape C4 quantifies over. -/
def condFragChars (w : String) (cmp : Comparator) (lit : List Char) : List Char :=
  w.data ++ ' ' :: (comparatorText cmp).data ++ ' ' :: lit

/-- Signed integer literal text: optional minus sign before the digits. -/
def intLit (neg : Bool) (ds : List Char) : List Char := if neg then '-' :: ds else ds

/-- Value of a signed integer literal. -/
def intLitVal (neg : Bool) (ds : List Char) : Int :=
  if neg then -(digitsToNat ds : Int) else (digitsToNat ds : Int)

lemma stripSemi_condFrag (u : String) (cmp : Comparator) (neg : Bool) (ds : List Char)
    (hne : ds.isEmpty = false) (hds : ds.all Char.isDigit = true) :
    stripSemi (condFragChars u cmp (intLit neg ds)) = condFragChars u cmp (intLit neg ds) := by
  cases neg with
  | true =>
    have hshape : condFragChars u cmp (intLit true ds) =
        (u.data ++ ' ' :: (comparatorText cmp).data ++ [' ', '-']) ++ ds := by
      simp [condFragChars, intLit]
    rw [hshape]
    exact stripSemi_digit_end _ ds hne hds
  | false =>
    have hshape : condFragChars u cmp (intLit false ds) =
        (u.data ++ ' ' :: (comparatorText cmp).data ++ [' ']) ++ ds := by
      simp [condFragChars, intLit]
    rw [hshape]
    exact stripSemi_digit_end _ ds hne hds

lemma matchSignedIntEnd_lit (neg : Bool) (ds : List Char) (hne : ds.isEmpty = false)
    (hds : ds.all Char.isDigit = true) :
    matchSignedIntEnd (intLit neg ds) = some (intLitVal neg ds) := by
  obtain ⟨d, ds', rfl⟩ : ∃ d ds', ds = d :: ds' := by
    cases ds with
    | nil => simp at hne
    | cons d ds' => exact ⟨d, ds', rfl⟩
  have hd : d.isDigit = true := by
    have := List.all_eq_true.mp hds d (List.mem_cons_self d ds')
    exact this
  have hdm : matchDigitsEnd (d :: ds') = some (digitsToNat (d :: ds')) := by
    simp [matchDigitsEnd, hds]
  cases neg with
  | true => simp [matchSignedIntEnd, intLit, intLitVal, hdm]
  | false =>
    have hdneg : ¬ d = '-' := fun e => by rw [e] at hd; exact absurd hd (by decide)
    simp [matchSignedIntEnd, intLit, intLitVal, hdneg, hdm]

lemma condAfterVar_spec (cmp : Comparator) (neg : Bool) (ds : List Char)
    (hne : ds.isEmpty = false) (hds : ds.all Char.isDigit = true) :
    condAfterVar (' ' :: ((comparatorText cmp).data ++ ' ' :: intLit neg ds)) =
      some (cmp, intLitVal neg ds) := by
  obtain ⟨d, ds', rfl⟩ : ∃ d ds', ds = d :: ds' := by
    cases ds with
    | nil => simp at hne
    | cons d ds' => exact ⟨d, ds', rfl⟩
  have hd : d.isDigit = true := List.all_eq_true.mp hds d (List.mem_cons_self d ds')
  have hlit_head : (intLit neg (d :: ds')).dropWhile isJsSpace = intLit neg (d :: ds') := by
    cases neg with
    | true =>
      show ('-' :: d :: ds').dropWhile isJsSpace = '-' :: d :: ds'
      rw [List.dropWhile_cons, if_neg (by decide)]
    | false =>
      show (d :: ds').dropWhile isJsSpace = d :: ds'
      rw [List.dropWhile_cons, if_neg (by simp [digit_not_space d hd])]
  have hint := matchSignedIntEnd_lit neg (d :: ds') hne hds
  have hdrop2 : (' ' :: intLit neg (d :: ds')).dropWhile isJsSpace = intLit neg (d :: ds') := by
    rw [List.dropWhile_cons, if_pos (by decide)]
    exact hlit_head
  cases cmp with
  | le =>
    have hred : condAfterVar (' ' :: ('<' :: '=' :: ' ' :: intLit neg (d :: ds'))) =
        Option.map (fun n => (Comparator.le, n))
          (matchSignedIntEnd ((' ' :: intLit neg (d :: ds')).dropWhile isJsSpace)) := rfl
    show condAfterVar (' ' :: ('<' :: '=' :: ' ' :: intLit neg (d :: ds'))) =
      some (Comparator.le, intLitVal neg (d :: ds'))
    rw [hred, hdrop2, hint]
    rfl
  | ge =>
    have hred : condAfterVar (' ' :: ('>' :: '=' :: ' ' :: intLit neg (d :: ds'))) =
        Option.map (fun n => (Comparator.ge, n))
          (matchSignedIntEnd ((' ' :: intLit neg (d :: ds')).dropWhile isJsSpace)) := rfl
    show condAfterVar (' ' :: ('>' :: '=' :: ' ' :: intLit neg (d :: ds'))) =
      some (Comparator.ge, intLitVal neg (d :: ds'))
    rw [hred, hdrop2, hint]
    rfl

/-- C4 amended: for an identifier accepted by the start stage that does not
contain `$`, a condition fragment of exactly that identifier, a comparator
and a signed integer (optionally with a trailing semicolon) passes the
condition stage capturing that comparator and integer; a fragment built from
any different identifier always fails the condition stage; and (per the
counterexample) when the captured identifier does contain `$` the stage
fails even on a fragment using exactly that identifier, because the raw
interpolation turns `$` into an end-of-input assertion. -/
theorem c4_conditionVariable_amended (v w : String) (cmp : Comparator) (neg : Bool)
    (ds : List Char) (hne : ds.isEmpty = false) (hds : ds.all Char.isDigit = true)
    (hv : isJsIdent v = true) (hw : isJsIdent w = true) :
    (v.data.contains '$' = false →
      matchCondition v ⟨condFragChars v cmp (intLit neg ds)⟩ = some (cmp, intLitVal neg ds) ∧
      matchCondition v ⟨condFragChars v cmp (intLit neg ds) ++ [';']⟩ =
        some (cmp, intLitVal neg ds))
    ∧ (w ≠ v → matchCondition v ⟨condFragChars w cmp (intLit neg ds)⟩ = none) := by
  constructor
  · intro hdollar
    have hsplit : condFragChars v cmp (intLit neg ds) =
        v.data ++ ' ' :: ((comparatorText cmp).data ++ ' ' :: intLit neg ds) := by
      simp [condFragChars]
    constructor
    · unfold matchCondition
      rw [if_neg (by rw [hdollar]; decide)]
      rw [(stripSemi_condFrag v cmp neg ds hne hds :
        stripSemi (⟨condFragChars v cmp (intLit neg ds)⟩ : String).data =
          condFragChars v cmp (intLit neg ds))]
      rw [hsplit, matchLiteral_append]
      exact condAfterVar_spec cmp neg ds hne hds
    · unfold matchCondition
      rw [if_neg (by rw [hdollar]; decide)]
      have hstrip2 : stripSemi (⟨condFragChars v cmp (intLit neg ds) ++ [';']⟩ : String).data =
          condFragChars v cmp (intLit neg ds) := by
        show stripSemi (condFragChars v cmp (intLit neg ds) ++ [';']) =
          condFragChars v cmp (intLit neg ds)
        simp only [stripSemi]
        rw [List.getLast?_concat, if_pos rfl, List.dropLast_concat]
      rw [hstrip2, hsplit, matchLiteral_append]
      exact condAfterVar_spec cmp neg ds hne hds
  · intro hwv
    by_cases hdollar : v.data.contains '$' = true
    · unfold matchCondition
      rw [if_pos hdollar]
    · have hdollar' : v.data.contains '$' = false := by
        rwa [Bool.not_eq_true] at hdollar
      unfold matchCondition
      rw [if_neg (by rw [hdollar']; decide)]
      rw [(stripSemi_condFrag w cmp neg ds hne hds :
        stripSemi (⟨condFragChars w cmp (intLit neg ds)⟩ : String).data =
          condFragChars w cmp (intLit neg ds))]
      have hsplit : condFragChars w cmp (intLit neg ds) =
          w.data ++ ' ' :: ((comparatorText cmp).data ++ ' ' :: intLit neg ds) := by
        simp [condFragChars]
      rw [hsplit]
      cases hml : matchLiteral v.data
          (w.data ++ ' ' :: ((comparatorText cmp).data ++ ' ' :: intLit neg ds)) with
      | none => rfl
      | some r =>
        obtain ⟨c, rest, hc, hr⟩ := matchLit_var_space v.data w.data (jsIdent_chars v hv)
          (jsIdent_chars w hw) (fun e => hwv (String.ext e.symm))
          ((comparatorText cmp).data ++ ' ' :: intLit neg ds) r hml
        subst hr
        exact condAfterVar_identHead c rest hc

/-- Counterexample to C4 as stated: the identifier `a$` is accepted by the
start stage, yet the condition fragment `a$ <= 5` — exactly that identifier,
the comparator and an integer — fails the condition stage, and the whole
parse reports the condition error. -/
theorem c4_conditionVariable_counterexample :
    matchStart (jsTrim "let a$ = 1") = some ("a$", 1) ∧
    isJsIdent "a$" = true ∧
    matchCondition "a$" (jsTrim "a$ <= 5") = none ∧
    parseCounterConfig
        { start := "let a$ = 1", condition := "a$ <= 5", step := "a$ = a$ + 1", body := "" } =
      ParseResult.error "Could not read the condition. Keep it like a$ <= 5." := by
  refine ⟨by decide, by decide, by decide, by decide⟩

/-- Witness for C4 amended: variable `i`, both semicolon variants, and the
different identifier `j` failing. -/
theorem c4_conditionVariable_witness :
    matchCondition "i" "i <= 5" = some (Comparator.le, 5) ∧
    matchCondition "i" "i <= 5;" = some (Comparator.le, 5) ∧
    matchCondition "i" "j <= 5" = none := by
  have h := c4_conditionVariable_amended "i" "j" Comparator.le false ['5']
    (by decide) (by decide) (by decide) (by decide)
  have e1 : (⟨condFragChars "i" Comparator.le (intLit false ['5'])⟩ : String) = "i <= 5" := by
    decide
  have e2 : (⟨condFragChars "i" Comparator.le (intLit false ['5']) ++ [';']⟩ : String) =
      "i <= 5;" := by decide
  have e3 : (⟨condFragChars "j" Comparator.le (intLit false ['5'])⟩ : String) = "j <= 5" := by
    decide
  have e4 : intLitVal false ['5'] = 5 := by decide
  have ha := (h.1 (by decide)).1
  have hb := (h.1 (by decide)).2
  have hc := h.2 (by decide)
  rw [e1, e4] at ha
  rw [e2, e4] at hb
  rw [e3] at hc
  exact ⟨ha, hb, hc⟩

end LoopsDemo
